import Mathlib

/-!
Shallow embedding of `src/handlers/import.rs` from the `warden-worker`
repository: the bulk-import handler `import_data` that materializes a
client-submitted bundle of folders and encrypted ciphers into prepared
database statements and submits them in two batches.

External collaborators (the D1 database, the system clock, serde_json
serialization of opaque payloads, and the `Uuid::new_v4` random identifier
generator) are modelled by an explicit environment record `Ext`; the
handler's observable behaviour is its returned result together with the
ordered list of batches it submitted to storage.
-/

namespace WardenWorker

/-- A JavaScript value as bound into a prepared statement (`JsValue`). -/
inductive JsVal where
  | null
  | str (s : String)
  | num (n : Int)
  | bool (b : Bool)
deriving Repr, DecidableEq

/-- A JSON value, standing in for `serde_json::Value`: the opaque shape of
the already-encrypted cipher payload substructures. The import core never
inspects these. -/
inductive JsonValue where
  | null
  | bool (b : Bool)
  | num (n : Int)
  | str (s : String)
  | arr (elems : List JsonValue)
  | obj (fields : List (String × JsonValue))

/-- The authenticated caller's verified claims (`crate::auth::Claims`);
only the subject is used by the import handler. -/
structure Claims where
  sub : String

/-- One folder entry of the import bundle (`models::import`): a
client-supplied id and a name. -/
structure ImportFolder where
  id : String
  name : String

/-- One cipher entry of the import bundle: the declared owner
(`encrypted_for`), the opaque encrypted payload substructures, and the
plain carried-over fields. `folder_id` is mutable during relationship
resolution. -/
structure ImportCipher where
  encrypted_for : String
  type : Int
  name : JsonValue
  notes : JsonValue
  login : JsonValue
  card : JsonValue
  identity : JsonValue
  secure_note : JsonValue
  fields : JsonValue
  password_history : JsonValue
  reprompt : JsonValue
  organization_id : Option String
  favorite : Bool
  folder_id : Option String

/-- An index pair `(key, value)` linking `ciphers[key]` to `folders[value]`
(`folder_relationships` entries of the request). -/
structure FolderRelationship where
  key : Nat
  value : Nat

/-- The import request body (`models::import::ImportRequest`). -/
structure ImportRequest where
  folders : List ImportFolder
  ciphers : List ImportCipher
  folder_relationships : List FolderRelationship

/-- The durable folder row (`models::folder::Folder`) as assembled by the
handler before binding. -/
structure Folder where
  id : String
  user_id : String
  name : String
  created_at : String
  updated_at : String
deriving Repr, DecidableEq

/-- The serialized-payload substructure (`models::cipher::CipherData`)
assembled from the nine opaque fields of an import cipher entry. -/
structure CipherData where
  name : JsonValue
  notes : JsonValue
  login : JsonValue
  card : JsonValue
  identity : JsonValue
  secure_note : JsonValue
  fields : JsonValue
  password_history : JsonValue
  reprompt : JsonValue

/-- The durable cipher row (`models::cipher::Cipher`) as assembled by the
handler before binding. -/
structure Cipher where
  id : String
  user_id : Option String
  organization_id : Option String
  type : Int
  data : JsonValue
  favorite : Bool
  folder_id : Option String
  deleted_at : Option String
  created_at : String
  updated_at : String
  object : String
  organization_use_totp : Bool
  edit : Bool
  view_password : Bool
  collection_ids : Option (List String)

/-- The error type of the handler (`crate::error::AppError`), restricted to
the variants this handler produces. -/
inductive AppError where
  | BadRequest (msg : String)
  | Internal
  | Database
deriving Repr, DecidableEq

/-- Modelled from the spec: the error-to-response translation
(`src/error.rs`, not part of the provided sources) surfaces an ownership
mismatch (`BadRequest`) as a rejected-request client-fault outcome, and
serialization (`Internal`) or storage (`Database`) faults as opaque
internal-fault outcomes. -/
def AppError.isClientFault : AppError → Bool
  | .BadRequest _ => true
  | .Internal => false
  | .Database => false

/-- A prepared statement (`D1PreparedStatement`): the SQL text it was
prepared from plus its bound values in order. -/
structure Stmt where
  query : String
  binds : List JsVal
deriving Repr, DecidableEq

/-- The environment of external collaborators observed by one call of
`import_data`: whether `db::get_db` fails, the one formatted clock reading,
whether each of the two batch submissions fails, the serde_json
serialization functions on the opaque payload types, and the successive
outputs of `Uuid::new_v4` (the n-th generated identifier of this call). -/
structure Ext where
  getDbErr : Option AppError
  now : String
  folderBatchFails : Bool
  cipherBatchFails : Bool
  serializeValue : CipherData → Option JsonValue
  serializeString : JsonValue → Option String
  fresh : Nat → String

/-- The observable outcome of one `import_data` call: the returned result
and the batches submitted to `db.batch`, in submission order. -/
structure ImportOut where
  result : Except AppError Unit
  batches : List (List Stmt)

/-- The folder insert statement text (line 26 of the handler). -/
def folder_query : String :=
  "INSERT OR IGNORE INTO folders (id, user_id, name, created_at, updated_at) VALUES (?1, ?2, ?3, ?4, ?5)"

/-- The cipher insert statement text (line 59 of the handler). -/
def cipher_query : String :=
  "INSERT OR IGNORE INTO ciphers (id, user_id, organization_id, type, data, favorite, folder_id, created_at, updated_at) VALUES (?1, ?2, ?3, ?4, ?5, ?6, ?7, ?8, ?9)"

/-- `fn to_js_val`: an optional value becomes `JsValue::NULL` when absent. -/
def to_js_val (val : Option String) : JsVal :=
  match val with
  | some s => JsVal.str s
  | none => JsVal.null

/-- The folder row built for one bundle entry (lines 29-35). -/
def mkFolder (sub now : String) (import_folder : ImportFolder) : Folder :=
  { id := import_folder.id
    user_id := sub
    name := import_folder.name
    created_at := now
    updated_at := now }

/-- The prepared folder statement for one bundle entry (lines 37-43). -/
def mkFolderStmt (sub now : String) (import_folder : ImportFolder) : Stmt :=
  let folder := mkFolder sub now import_folder
  { query := folder_query
    binds := [JsVal.str folder.id, JsVal.str folder.user_id, JsVal.str folder.name,
              JsVal.str folder.created_at, JsVal.str folder.updated_at] }

/-- One step of relationship resolution (lines 51-55): if both indices are
in range, set the addressed cipher's `folder_id` to the addressed folder's
id; otherwise do nothing. -/
def applyRelationship (folders : List ImportFolder) (ciphers : List ImportCipher)
    (relationship : FolderRelationship) : List ImportCipher :=
  match ciphers[relationship.key]?, folders[relationship.value]? with
  | some cipher, some folder =>
      ciphers.set relationship.key { cipher with folder_id := some folder.id }
  | _, _ => ciphers

/-- The relationship-resolution loop (lines 50-56), applied strictly in
submission order. -/
def resolveRelationships (rels : List FolderRelationship) (folders : List ImportFolder)
    (ciphers : List ImportCipher) : List ImportCipher :=
  rels.foldl (applyRelationship folders) ciphers

/-- The `CipherData` payload assembled from one import cipher entry
(lines 66-76): strictly the nine client-provided opaque fields. -/
def mkCipherData (import_cipher : ImportCipher) : CipherData :=
  { name := import_cipher.name
    notes := import_cipher.notes
    login := import_cipher.login
    card := import_cipher.card
    identity := import_cipher.identity
    secure_note := import_cipher.secure_note
    fields := import_cipher.fields
    password_history := import_cipher.password_history
    reprompt := import_cipher.reprompt }

/-- The cipher row built for one entry (lines 80-96): a freshly generated
id, the caller as owner, the carried-over fields, creation defaults and the
request-wide timestamp. -/
def mkCipher (sub now freshId : String) (data_value : JsonValue)
    (import_cipher : ImportCipher) : Cipher :=
  { id := freshId
    user_id := some sub
    organization_id := import_cipher.organization_id
    type := import_cipher.type
    data := data_value
    favorite := import_cipher.favorite
    folder_id := import_cipher.folder_id
    deleted_at := none
    created_at := now
    updated_at := now
    object := "cipher"
    organization_use_totp := false
    edit := true
    view_password := true
    collection_ids := none }

/-- The prepared cipher statement for one built row (lines 100-110). -/
def mkCipherStmt (cipher : Cipher) (data : String) : Stmt :=
  { query := cipher_query
    binds := [JsVal.str cipher.id,
              to_js_val cipher.user_id,
              to_js_val cipher.organization_id,
              JsVal.num cipher.type,
              JsVal.str data,
              JsVal.bool cipher.favorite,
              to_js_val cipher.folder_id,
              JsVal.str cipher.created_at,
              JsVal.str cipher.updated_at] }

/-- The cipher loop (lines 61-111): in submission order, validate ownership
(reject the whole import on mismatch), serialize the payload (internal
fault on failure), build the row with the `idx`-th fresh identifier, and
collect the prepared statements. -/
def processCiphers (ext : Ext) (sub : String) : Nat → List ImportCipher → Except AppError (List Stmt)
  | _, [] => Except.ok []
  | idx, import_cipher :: rest =>
    if import_cipher.encrypted_for ≠ sub then
      Except.error (AppError.BadRequest "Cipher encrypted for wrong user")
    else
      match ext.serializeValue (mkCipherData import_cipher) with
      | none => Except.error AppError.Internal
      | some data_value =>
        let cipher := mkCipher sub ext.now (ext.fresh idx) data_value import_cipher
        match ext.serializeString cipher.data with
        | none => Except.error AppError.Internal
        | some data =>
          match processCiphers ext sub (idx + 1) rest with
          | Except.error e => Except.error e
          | Except.ok stmts => Except.ok (mkCipherStmt cipher data :: stmts)

/-- The tail of the handler after the folder batch (lines 50-117):
relationship resolution has produced `resolved`, `fb` is the list of
batches already submitted; process the ciphers and submit their batch if
non-empty. -/
def importAfterFolders (ext : Ext) (sub : String) (resolved : List ImportCipher)
    (fb : List (List Stmt)) : ImportOut :=
  match processCiphers ext sub 0 resolved with
  | Except.error e => { result := Except.error e, batches := fb }
  | Except.ok cipher_stmts =>
    if cipher_stmts.isEmpty then
      { result := Except.ok (), batches := fb }
    else if ext.cipherBatchFails then
      { result := Except.error AppError.Database, batches := fb ++ [cipher_stmts] }
    else
      { result := Except.ok (), batches := fb ++ [cipher_stmts] }

/-- The import handler `import_data` (lines 16-118): acquire the database,
read the clock once, prepare and batch the folder statements (skipping an
empty batch), resolve relationships in memory, then process and batch the
ciphers (skipping an empty batch). -/
def import_data (ext : Ext) (claims : Claims) (payload : ImportRequest) : ImportOut :=
  match ext.getDbErr with
  | some e => { result := Except.error e, batches := [] }
  | none =>
    let folder_stmts := payload.folders.map (mkFolderStmt claims.sub ext.now)
    let resolved := resolveRelationships payload.folder_relationships payload.folders payload.ciphers
    if folder_stmts.isEmpty then
      importAfterFolders ext claims.sub resolved []
    else if ext.folderBatchFails then
      { result := Except.error AppError.Database, batches := [folder_stmts] }
    else
      importAfterFolders ext claims.sub resolved [folder_stmts]

/-! ### Characterization of relationship resolution -/

/-- The pairs of a relationship list that hit cipher index `i` with an
in-range folder index. -/
def hits (folders : List ImportFolder) (i : Nat) (rels : List FolderRelationship) :
    List FolderRelationship :=
  rels.filter (fun r => r.key == i && decide (r.value < folders.length))

/-- The entry the resolver leaves at cipher index `i`: the original entry,
except that the last in-range pair naming index `i` (if any) determines its
`folder_id`. -/
def resolveEntry (folders : List ImportFolder) (rels : List FolderRelationship) (i : Nat)
    (cipher : ImportCipher) : ImportCipher :=
  match (hits folders i rels).getLast? with
  | some r => { cipher with folder_id := (folders[r.value]?).map ImportFolder.id }
  | none => cipher

theorem applyRelationship_length (folders : List ImportFolder) (ciphers : List ImportCipher)
    (r : FolderRelationship) :
    (applyRelationship folders ciphers r).length = ciphers.length := by
  unfold applyRelationship
  rcases h1 : ciphers[r.key]? with _ | c <;> rcases h2 : folders[r.value]? with _ | f <;>
    simp [h1, h2, List.length_set]

theorem resolve_length (folders : List ImportFolder) :
    ∀ (rels : List FolderRelationship) (ciphers : List ImportCipher),
    (resolveRelationships rels folders ciphers).length = ciphers.length := by
  intro rels
  induction rels with
  | nil => intro ciphers; rfl
  | cons r rs ih =>
    intro ciphers
    have hstep : resolveRelationships (r :: rs) folders ciphers
        = resolveRelationships rs folders (applyRelationship folders ciphers r) := rfl
    rw [hstep, ih, applyRelationship_length]

theorem resolveEntry_set_folder_id (folders : List ImportFolder) (rels : List FolderRelationship)
    (i : Nat) (c : ImportCipher) (x : Option String) :
    { resolveEntry folders rels i c with folder_id := x } = { c with folder_id := x } := by
  unfold resolveEntry
  cases (hits folders i rels).getLast? <;> rfl

theorem resolve_getElem? (rels : List FolderRelationship) (folders : List ImportFolder)
    (ciphers : List ImportCipher) (i : Nat) :
    (resolveRelationships rels folders ciphers)[i]?
      = (ciphers[i]?).map (resolveEntry folders rels i) := by
  induction rels using List.reverseRecOn with
  | nil =>
    cases h : ciphers[i]? <;> simp [resolveRelationships, resolveEntry, hits, h]
  | append_singleton rels r ih =>
    have hstep : resolveRelationships (rels ++ [r]) folders ciphers
        = applyRelationship folders (resolveRelationships rels folders ciphers) r := by
      simp [resolveRelationships, List.foldl_append]
    rw [hstep]
    by_cases hp : (r.key == i && decide (r.value < folders.length)) = true
    · -- the appended pair is the new last hit for index i
      have hand := (Bool.and_eq_true _ _).mp hp
      have hkey : r.key = i := by simpa using hand.1
      have hval : r.value < folders.length := by simpa using hand.2
      have hfilter : hits folders i (rels ++ [r]) = hits folders i rels ++ [r] := by
        simp [hits, List.filter_append, hp]
      have hlast : (hits folders i (rels ++ [r])).getLast? = some r := by
        rw [hfilter]; exact List.getLast?_concat _
      have hfr : folders[r.value]? = some folders[r.value] := List.getElem?_eq_getElem hval
      cases hc : ciphers[i]? with
      | none =>
        have hLi : (resolveRelationships rels folders ciphers)[i]? = none := by
          rw [ih, hc]; rfl
        unfold applyRelationship
        rw [hkey]
        rw [hLi]
        simp [hLi, resolveEntry, hlast, hc]
      | some c0 =>
        have hLi : (resolveRelationships rels folders ciphers)[i]?
            = some (resolveEntry folders rels i c0) := by rw [ih, hc]; rfl
        have hilen : i < (resolveRelationships rels folders ciphers).length := by
          rw [resolve_length]
          exact (List.getElem?_eq_some.mp hc).1
        unfold applyRelationship
        rw [hkey, hLi, hfr]
        have hset : ((resolveRelationships rels folders ciphers).set i
            { resolveEntry folders rels i c0 with folder_id := some folders[r.value].id })[i]?
            = some { resolveEntry folders rels i c0 with folder_id := some folders[r.value].id } := by
          rw [List.getElem?_set_self]; exact hilen
        rw [hset, resolveEntry_set_folder_id]
        simp [resolveEntry, hlast, hc, hfr]
    · -- the appended pair does not affect index i
      have hfilter : hits folders i (rels ++ [r]) = hits folders i rels := by
        unfold hits
        rw [List.filter_append]
        simp [List.filter_cons, hp]
      have hentry : resolveEntry folders (rels ++ [r]) i = resolveEntry folders rels i := by
        funext c; unfold resolveEntry; rw [hfilter]
      rw [hentry, ← ih]
      unfold applyRelationship
      rcases h1 : (resolveRelationships rels folders ciphers)[r.key]? with _ | c <;>
        rcases h2 : folders[r.value]? with _ | f <;> simp [h1, h2]
      -- remaining case: the pair fired, so r.key ≠ i
      have hkne : r.key ≠ i := by
        intro hke
        apply hp
        have hv : r.value < folders.length := (List.getElem?_eq_some.mp h2).1
        simp [hke, hv]
      exact List.getElem?_set_ne hkne

/-! ### Characterization of the cipher loop -/

/-- Whether both serialization steps of the cipher loop succeed on one
entry (lines 78 and 98). -/
def serOk (ext : Ext) (import_cipher : ImportCipher) : Bool :=
  match ext.serializeValue (mkCipherData import_cipher) with
  | none => false
  | some data_value => (ext.serializeString data_value).isSome

/-- The statement the cipher loop produces for the entry processed at
position `idx`, assuming both serialization steps succeed on it. -/
def cipherStmtFor (ext : Ext) (sub : String) (idx : Nat) (import_cipher : ImportCipher) : Stmt :=
  let data_value := (ext.serializeValue (mkCipherData import_cipher)).getD JsonValue.null
  let cipher := mkCipher sub ext.now (ext.fresh idx) data_value import_cipher
  mkCipherStmt cipher ((ext.serializeString data_value).getD "")

/-- The full statement list the cipher loop produces when every entry
passes ownership validation and serialization. -/
def expectedCipherStmts (ext : Ext) (sub : String) : Nat → List ImportCipher → List Stmt
  | _, [] => []
  | idx, import_cipher :: rest =>
      cipherStmtFor ext sub idx import_cipher :: expectedCipherStmts ext sub (idx + 1) rest

theorem serOk_eq_true_iff (ext : Ext) (c : ImportCipher) :
    serOk ext c = true ↔
      ∃ v s, ext.serializeValue (mkCipherData c) = some v ∧ ext.serializeString v = some s := by
  unfold serOk
  rcases hv : ext.serializeValue (mkCipherData c) with _ | v <;>
    simp [hv, Option.isSome_iff_exists]

theorem processCiphers_ok_of_passes (ext : Ext) (sub : String) :
    ∀ (cs : List ImportCipher) (idx : Nat),
    (∀ c ∈ cs, c.encrypted_for = sub ∧ serOk ext c = true) →
    processCiphers ext sub idx cs = Except.ok (expectedCipherStmts ext sub idx cs) := by
  intro cs
  induction cs with
  | nil => intro idx _; rfl
  | cons c rest ih =>
    intro idx h
    obtain ⟨hown, hser⟩ := h c (List.mem_cons_self c rest)
    have hrest : ∀ x ∈ rest, x.encrypted_for = sub ∧ serOk ext x = true :=
      fun x hx => h x (List.mem_cons_of_mem c hx)
    obtain ⟨v, s, hv, hs⟩ := (serOk_eq_true_iff ext c).mp hser
    simp only [processCiphers, hown, ne_eq, not_true_eq_false, if_false, hv, mkCipher, hs,
      ih (idx + 1) hrest, expectedCipherStmts, cipherStmtFor, Option.getD_some]

theorem processCiphers_owner_mismatch (ext : Ext) (sub : String) :
    ∀ (pre : List ImportCipher) (bad : ImportCipher) (rest : List ImportCipher) (idx : Nat),
    (∀ c ∈ pre, c.encrypted_for = sub ∧ serOk ext c = true) →
    bad.encrypted_for ≠ sub →
    processCiphers ext sub idx (pre ++ bad :: rest)
      = Except.error (AppError.BadRequest "Cipher encrypted for wrong user") := by
  intro pre
  induction pre with
  | nil =>
    intro bad rest idx _ hbad
    simp only [List.nil_append, processCiphers, if_pos hbad]
  | cons c pre ih =>
    intro bad rest idx h hbad
    obtain ⟨hown, hser⟩ := h c (List.mem_cons_self c pre)
    have hpre : ∀ x ∈ pre, x.encrypted_for = sub ∧ serOk ext x = true :=
      fun x hx => h x (List.mem_cons_of_mem c hx)
    obtain ⟨v, s, hv, hs⟩ := (serOk_eq_true_iff ext c).mp hser
    simp only [List.cons_append, List.append_eq, processCiphers, hown, ne_eq, not_true_eq_false,
      if_false, hv, mkCipher, hs, ih bad rest (idx + 1) hpre hbad]

theorem serOk_eq_false_iff (ext : Ext) (c : ImportCipher) :
    serOk ext c = false ↔
      (ext.serializeValue (mkCipherData c) = none ∨
       ∃ v, ext.serializeValue (mkCipherData c) = some v ∧ ext.serializeString v = none) := by
  unfold serOk
  rcases hv : ext.serializeValue (mkCipherData c) with _ | v <;> simp [hv]

theorem processCiphers_ser_fault (ext : Ext) (sub : String) :
    ∀ (pre : List ImportCipher) (bad : ImportCipher) (rest : List ImportCipher) (idx : Nat),
    (∀ c ∈ pre, c.encrypted_for = sub ∧ serOk ext c = true) →
    bad.encrypted_for = sub →
    serOk ext bad = false →
    processCiphers ext sub idx (pre ++ bad :: rest) = Except.error AppError.Internal := by
  intro pre
  induction pre with
  | nil =>
    intro bad rest idx _ hbadOwner hbadSer
    rcases (serOk_eq_false_iff ext bad).mp hbadSer with hv | ⟨v, hv, hs⟩
    · simp only [List.nil_append, processCiphers, hbadOwner, ne_eq, not_true_eq_false, if_false, hv]
    · simp only [List.nil_append, processCiphers, hbadOwner, ne_eq, not_true_eq_false, if_false,
        hv, mkCipher, hs]
  | cons c pre ih =>
    intro bad rest idx h hbadOwner hbadSer
    obtain ⟨hown, hser⟩ := h c (List.mem_cons_self c pre)
    have hpre : ∀ x ∈ pre, x.encrypted_for = sub ∧ serOk ext x = true :=
      fun x hx => h x (List.mem_cons_of_mem c hx)
    obtain ⟨v, s, hv, hs⟩ := (serOk_eq_true_iff ext c).mp hser
    simp only [List.cons_append, List.append_eq, processCiphers, hown, ne_eq, not_true_eq_false,
      if_false, hv, mkCipher, hs, ih bad rest (idx + 1) hpre hbadOwner hbadSer]

theorem processCiphers_ok_mem (ext : Ext) (sub : String) :
    ∀ (cs : List ImportCipher) (idx : Nat) (stmts : List Stmt),
    processCiphers ext sub idx cs = Except.ok stmts →
    ∀ s ∈ stmts, s.query = cipher_query ∧
      s.binds.drop (s.binds.length - 2) = [JsVal.str ext.now, JsVal.str ext.now] := by
  intro cs
  induction cs with
  | nil =>
    intro idx stmts h s hs
    unfold processCiphers at h
    cases h
    cases hs
  | cons c rest ih =>
    intro idx stmts h s hs
    by_cases hown : c.encrypted_for = sub
    · by_cases hser : serOk ext c = true
      · obtain ⟨v, vs, hv, hvs⟩ := (serOk_eq_true_iff ext c).mp hser
        simp only [processCiphers, hown, ne_eq, not_true_eq_false, if_false, hv, mkCipher,
          hvs] at h
        split at h
        · exact Except.noConfusion h
        · rename_i stmts' hrec
          cases h
          rcases List.mem_cons.mp hs with hhead | htail
          · subst hhead
            exact ⟨rfl, rfl⟩
          · exact ih (idx + 1) stmts' hrec s htail
      · have hfault := processCiphers_ser_fault ext sub [] c rest idx (by intro x hx; cases hx)
          hown (by revert hser; cases serOk ext c <;> simp)
        rw [List.nil_append] at hfault
        rw [hfault] at h
        exact Except.noConfusion h
    · have hfault := processCiphers_owner_mismatch ext sub [] c rest idx
        (by intro x hx; cases hx) hown
      rw [List.nil_append] at hfault
      rw [hfault] at h
      exact Except.noConfusion h

theorem expectedCipherStmts_length (ext : Ext) (sub : String) :
    ∀ (cs : List ImportCipher) (idx : Nat),
    (expectedCipherStmts ext sub idx cs).length = cs.length := by
  intro cs
  induction cs with
  | nil => intro idx; rfl
  | cons c rest ih => intro idx; simp [expectedCipherStmts, ih]

theorem expectedCipherStmts_get (ext : Ext) (sub : String) :
    ∀ (cs : List ImportCipher) (idx j : Nat)
    (h : j < (expectedCipherStmts ext sub idx cs).length) (hj : j < cs.length),
    (expectedCipherStmts ext sub idx cs).get ⟨j, h⟩
      = cipherStmtFor ext sub (idx + j) (cs.get ⟨j, hj⟩) := by
  intro cs
  induction cs with
  | nil => intro idx j h hj; exact absurd hj (by simp)
  | cons c rest ih =>
    intro idx j h hj
    cases j with
    | zero => rfl
    | succ j =>
      have hlen : j < (expectedCipherStmts ext sub (idx + 1) rest).length := by
        have := h
        simpa [expectedCipherStmts] using this
      have hj' : j < rest.length := by simpa using hj
      have := ih (idx + 1) j hlen hj'
      have harith : idx + 1 + j = idx + (j + 1) := by omega
      simpa [expectedCipherStmts, List.get, harith] using this

/-! ### Characterization of the whole handler -/

/-- The batch list produced by the folder phase: nothing when the bundle
has no folders, otherwise the one prepared folder batch. -/
def folderBatches (ext : Ext) (claims : Claims) (payload : ImportRequest) : List (List Stmt) :=
  if payload.folders.isEmpty then []
  else [payload.folders.map (mkFolderStmt claims.sub ext.now)]

theorem map_isEmpty {α β : Type} (f : α → β) (l : List α) : (l.map f).isEmpty = l.isEmpty := by
  cases l <;> rfl

theorem import_data_eq (ext : Ext) (claims : Claims) (payload : ImportRequest)
    (hdb : ext.getDbErr = none) (hfb : ext.folderBatchFails = false) :
    import_data ext claims payload
      = importAfterFolders ext claims.sub
          (resolveRelationships payload.folder_relationships payload.folders payload.ciphers)
          (folderBatches ext claims payload) := by
  unfold import_data folderBatches
  rw [hdb]
  by_cases hf : payload.folders.isEmpty
  · rw [if_pos ((map_isEmpty _ _).trans hf), if_pos hf]
  · rw [if_neg (fun hc => hf ((map_isEmpty _ _).symm.trans hc)), if_neg hf, hfb]
    simp

theorem importAfterFolders_error (ext : Ext) (sub : String) (resolved : List ImportCipher)
    (fb : List (List Stmt)) (e : AppError)
    (h : processCiphers ext sub 0 resolved = Except.error e) :
    importAfterFolders ext sub resolved fb = { result := Except.error e, batches := fb } := by
  unfold importAfterFolders
  rw [h]

theorem importAfterFolders_batches (ext : Ext) (sub : String) (resolved : List ImportCipher)
    (fb : List (List Stmt)) :
    ∀ b ∈ (importAfterFolders ext sub resolved fb).batches,
      b ∈ fb ∨ ∃ cs, processCiphers ext sub 0 resolved = Except.ok cs ∧ b = cs ∧
        cs.isEmpty = false := by
  intro b hb
  unfold importAfterFolders at hb
  split at hb
  · exact Or.inl hb
  · rename_i cs hcs
    by_cases hemp : cs.isEmpty
    · rw [if_pos hemp] at hb
      exact Or.inl hb
    · rw [if_neg hemp] at hb
      have hbmem : b ∈ fb ++ [cs] := by
        rcases hcf : ext.cipherBatchFails with _ | _ <;> rw [hcf] at hb <;> simpa using hb
      rcases List.mem_append.mp hbmem with h1 | h2
      · exact Or.inl h1
      · refine Or.inr ⟨cs, hcs, ?_, by revert hemp; cases cs.isEmpty <;> simp⟩
        simpa using h2

/-! ### A model of the folders table under "INSERT OR IGNORE" -/

/-- Whether the table already holds a row with the given primary key. -/
def hasId (table : List Folder) (fid : String) : Bool :=
  table.any (fun row => row.id == fid)

/-- The number of rows with the given primary key. -/
def countId (table : List Folder) (fid : String) : Nat :=
  (table.filter (fun row => row.id == fid)).length

/-- Modelled from the spec: the storage collaborator that executes the
prepared statements is external to the provided sources, so its effect on
the `folders` table is modelled from §4.1 of the spec and the statement
text of `folder_query`: the insert is keyed on the primary key `id`, and a
conflicting primary key is silently ignored, never an error
("INSERT OR IGNORE"). A statement with a different query or bind shape
leaves the table unchanged. -/
def applyFolderStmt (table : List Folder) (s : Stmt) : List Folder :=
  if s.query = folder_query then
    match s.binds with
    | [JsVal.str fid, JsVal.str uid, JsVal.str nm, JsVal.str ca, JsVal.str ua] =>
      if hasId table fid then table
      else table ++ [{ id := fid, user_id := uid, name := nm, created_at := ca, updated_at := ua }]
    | _ => table
  else table

/-- Sequential execution of a batch of statements against the `folders`
table. -/
def applyFolderBatch (table : List Folder) (stmts : List Stmt) : List Folder :=
  stmts.foldl applyFolderStmt table

theorem applyFolderStmt_mk (table : List Folder) (sub now : String) (f : ImportFolder) :
    applyFolderStmt table (mkFolderStmt sub now f)
      = if hasId table f.id then table else table ++ [mkFolder sub now f] := by
  unfold applyFolderStmt mkFolderStmt mkFolder
  rw [if_pos rfl]

theorem hasId_append_row (table : List Folder) (row : Folder) (fid : String) :
    hasId (table ++ [row]) fid = (hasId table fid || (row.id == fid)) := by
  simp [hasId, List.any_append]

theorem countId_append_row (table : List Folder) (row : Folder) (fid : String) :
    countId (table ++ [row]) fid = countId table fid + (if row.id == fid then 1 else 0) := by
  unfold countId
  rw [List.filter_append]
  simp [List.filter_cons]
  split <;> simp

theorem countId_eq_zero_of_hasId_eq_false (table : List Folder) (fid : String)
    (h : hasId table fid = false) : countId table fid = 0 := by
  unfold countId
  rw [List.length_eq_zero]
  rw [List.filter_eq_nil_iff]
  intro row hrow
  intro hbeq
  unfold hasId at h
  rw [List.any_eq_false] at h
  exact absurd hbeq (h row hrow)

theorem countId_eq_one_of_hasId (table : List Folder) (fid : String)
    (hinv : countId table fid ≤ 1) (h : hasId table fid = true) : countId table fid = 1 := by
  obtain ⟨row, hrow, hbeq⟩ := List.any_eq_true.mp h
  have hpos : 0 < countId table fid := by
    unfold countId
    rw [List.length_pos]
    intro hnil
    have hmem : row ∈ table.filter (fun r => r.id == fid) := List.mem_filter.mpr ⟨hrow, hbeq⟩
    rw [hnil] at hmem
    cases hmem
  omega

theorem hasId_applyFolderBatch_mk (sub now : String) :
    ∀ (fs : List ImportFolder) (table : List Folder) (fid : String),
    hasId (applyFolderBatch table (fs.map (mkFolderStmt sub now))) fid
      = (hasId table fid || fs.any (fun f => f.id == fid)) := by
  intro fs
  induction fs with
  | nil => intro table fid; simp [applyFolderBatch]
  | cons f fs ih =>
    intro table fid
    have hstep : applyFolderBatch table ((f :: fs).map (mkFolderStmt sub now))
        = applyFolderBatch (applyFolderStmt table (mkFolderStmt sub now f))
            (fs.map (mkFolderStmt sub now)) := rfl
    rw [hstep, ih]
    rw [applyFolderStmt_mk]
    by_cases h : hasId table f.id
    · rw [if_pos h]
      by_cases hfid : (f.id == fid) = true
      · have hfe : hasId table fid = true := by
          rw [← show f.id = fid from by simpa using hfid]
          exact h
        simp [hfe, hfid, List.any_cons]
      · have hb : (f.id == fid) = false := by revert hfid; cases f.id == fid <;> simp
        simp only [List.any_cons, hb, Bool.false_or]
    · rw [if_neg h, hasId_append_row]
      simp only [List.any_cons, mkFolder]
      rw [Bool.or_assoc]

theorem countId_applyFolderBatch_mk (sub now : String) :
    ∀ (fs : List ImportFolder) (table : List Folder),
    (∀ x, countId table x ≤ 1) →
    ∀ fid, countId (applyFolderBatch table (fs.map (mkFolderStmt sub now))) fid
      = if (hasId table fid || fs.any (fun f => f.id == fid)) then 1 else 0 := by
  intro fs
  induction fs with
  | nil =>
    intro table hinv fid
    show countId table fid = if (hasId table fid || false) then 1 else 0
    rw [Bool.or_false]
    by_cases h : hasId table fid
    · rw [if_pos h]
      exact countId_eq_one_of_hasId table fid (hinv fid) h
    · rw [if_neg (by simpa using h)]
      exact countId_eq_zero_of_hasId_eq_false table fid (by revert h; cases hasId table fid <;> simp)
  | cons f fs ih =>
    intro table hinv fid
    have hstep : applyFolderBatch table ((f :: fs).map (mkFolderStmt sub now))
        = applyFolderBatch (applyFolderStmt table (mkFolderStmt sub now f))
            (fs.map (mkFolderStmt sub now)) := rfl
    rw [hstep, applyFolderStmt_mk]
    by_cases h : hasId table f.id
    · rw [if_pos h, ih table hinv fid]
      by_cases hfid : (f.id == fid) = true
      · have hfe : hasId table fid = true := by
          rw [← show f.id = fid from by simpa using hfid]
          exact h
        simp [hfe, hfid, List.any_cons]
      · have hb : (f.id == fid) = false := by revert hfid; cases f.id == fid <;> simp
        simp only [List.any_cons, hb, Bool.false_or]
    · rw [if_neg h]
      have hinv2 : ∀ x, countId (table ++ [mkFolder sub now f]) x ≤ 1 := by
        intro x
        rw [countId_append_row]
        by_cases hx : (f.id == x) = true
        · have hxe : f.id = x := by simpa using hx
          have hz : countId table x = 0 := by
            apply countId_eq_zero_of_hasId_eq_false
            rw [← hxe]
            revert h; cases hasId table f.id <;> simp
          simp [hz, hx, mkFolder]
        · rw [if_neg (show ¬((mkFolder sub now f).id == x) = true from hx)]
          simpa using hinv x
      rw [ih _ hinv2 fid, hasId_append_row]
      have hm : (mkFolder sub now f).id = f.id := rfl
      simp only [List.any_cons, hm]
      rw [Bool.or_assoc]

theorem applyFolderBatch_mk_noop (sub now : String) :
    ∀ (fs : List ImportFolder) (table : List Folder),
    (∀ f ∈ fs, hasId table f.id = true) →
    applyFolderBatch table (fs.map (mkFolderStmt sub now)) = table := by
  intro fs
  induction fs with
  | nil => intro table _; rfl
  | cons f fs ih =>
    intro table h
    have hstep : applyFolderBatch table ((f :: fs).map (mkFolderStmt sub now))
        = applyFolderBatch (applyFolderStmt table (mkFolderStmt sub now f))
            (fs.map (mkFolderStmt sub now)) := rfl
    rw [hstep, applyFolderStmt_mk, if_pos (h f (List.mem_cons_self f fs))]
    exact ih table (fun x hx => h x (List.mem_cons_of_mem f hx))

/-! ### Frame helpers -/

/-- Equality of two cipher entries on every field except `folder_id`. -/
def sameExceptFolderId (a b : ImportCipher) : Prop :=
  a.encrypted_for = b.encrypted_for ∧ a.type = b.type ∧ a.name = b.name ∧ a.notes = b.notes ∧
  a.login = b.login ∧ a.card = b.card ∧ a.identity = b.identity ∧
  a.secure_note = b.secure_note ∧ a.fields = b.fields ∧
  a.password_history = b.password_history ∧ a.reprompt = b.reprompt ∧
  a.organization_id = b.organization_id ∧ a.favorite = b.favorite

theorem resolveEntry_frame (folders : List ImportFolder) (rels : List FolderRelationship)
    (i : Nat) (c : ImportCipher) : sameExceptFolderId (resolveEntry folders rels i c) c := by
  unfold resolveEntry
  cases (hits folders i rels).getLast? <;>
    exact ⟨rfl, rfl, rfl, rfl, rfl, rfl, rfl, rfl, rfl, rfl, rfl, rfl, rfl⟩

theorem resolve_get (rels : List FolderRelationship) (folders : List ImportFolder)
    (ciphers : List ImportCipher) (i : Nat)
    (h1 : i < (resolveRelationships rels folders ciphers).length) (h2 : i < ciphers.length) :
    (resolveRelationships rels folders ciphers).get ⟨i, h1⟩
      = resolveEntry folders rels i (ciphers.get ⟨i, h2⟩) := by
  have hq := resolve_getElem? rels folders ciphers i
  rw [List.getElem?_eq_getElem h1, List.getElem?_eq_getElem h2] at hq
  simp only [Option.map_some'] at hq
  rw [List.get_eq_getElem, List.get_eq_getElem]
  exact Option.some.inj hq

/-- The folder statements among everything an import call submitted. -/
def submittedFolderStmts (out : ImportOut) : List Stmt :=
  out.batches.flatten.filter (fun s => s.query == folder_query)

theorem cipher_query_ne_folder_query : (cipher_query == folder_query) = false := by
  decide

theorem submittedFolderStmts_importAfterFolders (ext : Ext) (sub : String)
    (resolved : List ImportCipher) (fb : List (List Stmt)) :
    submittedFolderStmts (importAfterFolders ext sub resolved fb)
      = fb.flatten.filter (fun s => s.query == folder_query) := by
  unfold importAfterFolders
  split
  · rfl
  · rename_i cs hcs
    by_cases hemp : cs.isEmpty
    · rw [if_pos hemp]
      rfl
    · rw [if_neg hemp]
      have hfilter : cs.filter (fun s => s.query == folder_query) = [] := by
        rw [List.filter_eq_nil_iff]
        intro s hs
        rw [(processCiphers_ok_mem ext sub resolved 0 cs hcs s hs).1]
        simp [cipher_query_ne_folder_query]
      rcases hcf : ext.cipherBatchFails <;>
        simp [submittedFolderStmts, List.flatten_append, List.filter_append, hfilter]

theorem import_data_batches_cases (ext : Ext) (claims : Claims) (payload : ImportRequest)
    (b : List Stmt) :
    b ∈ (import_data ext claims payload).batches →
      (b = payload.folders.map (mkFolderStmt claims.sub ext.now) ∧ b.isEmpty = false) ∨
      (∃ cs, processCiphers ext claims.sub 0
          (resolveRelationships payload.folder_relationships payload.folders payload.ciphers)
          = Except.ok cs ∧ b = cs ∧ cs.isEmpty = false) := by
  unfold import_data
  rcases hdb : ext.getDbErr with _ | e
  · dsimp only
    by_cases hf : (payload.folders.map (mkFolderStmt claims.sub ext.now)).isEmpty
    · rw [if_pos hf]
      intro hb
      rcases importAfterFolders_batches _ _ _ _ b hb with hfb | hcs
      · cases hfb
      · exact Or.inr hcs
    · have hne : (payload.folders.map (mkFolderStmt claims.sub ext.now)).isEmpty = false := by
        revert hf; cases (payload.folders.map (mkFolderStmt claims.sub ext.now)).isEmpty <;> simp
      rw [if_neg hf]
      by_cases hbf : ext.folderBatchFails
      · rw [if_pos hbf]
        intro hb
        have hbeq : b = payload.folders.map (mkFolderStmt claims.sub ext.now) := by simpa using hb
        exact Or.inl ⟨hbeq, by rw [hbeq]; exact hne⟩
      · rw [if_neg hbf]
        intro hb
        rcases importAfterFolders_batches _ _ _ _ b hb with hfb | hcs
        · have hbeq : b = payload.folders.map (mkFolderStmt claims.sub ext.now) := by
            simpa using hfb
          exact Or.inl ⟨hbeq, by rw [hbeq]; exact hne⟩
        · exact Or.inr hcs
  · intro hb
    exact absurd hb (List.not_mem_nil b)

/-! ### Concrete sample inputs used by the witnesses -/

/-- A concrete opaque payload value. -/
def jNull : JsonValue := JsonValue.null

/-- A concrete cipher entry with the given declared owner. -/
def sampleCipher (owner : String) : ImportCipher :=
  { encrypted_for := owner, type := 1, name := jNull, notes := jNull, login := jNull,
    card := jNull, identity := jNull, secure_note := jNull, fields := jNull,
    password_history := jNull, reprompt := jNull, organization_id := none,
    favorite := false, folder_id := none }

/-- A concrete folder entry. -/
def sampleFolder (fid nm : String) : ImportFolder := { id := fid, name := nm }

/-- A concrete healthy environment: the database is available, both batches
succeed, serialization always succeeds, and the n-th generated identifier
is the decimal rendering of n. -/
def sampleExt : Ext :=
  { getDbErr := none, now := "2025-01-01T00:00:00.000Z", folderBatchFails := false,
    cipherBatchFails := false,
    serializeValue := fun _ => some JsonValue.null,
    serializeString := fun _ => some "null",
    fresh := fun n => toString n }

/-- The concrete caller. -/
def sampleClaims : Claims := { sub := "u" }

def wFolders : List ImportFolder := [sampleFolder "F0" "alpha", sampleFolder "F1" "beta"]

def wCiphers : List ImportCipher := [sampleCipher "u", sampleCipher "u"]

def wRels : List FolderRelationship := [⟨1, 0⟩]

def samplePayload : ImportRequest :=
  { folders := wFolders, ciphers := wCiphers, folder_relationships := wRels }

/-! ### Claim theorems -/

/-- Claim C2: the relationship-resolution phase applies the pairs strictly
in submission order; each pair with both indices in range sets the
addressed cipher's `folder_id` to the addressed folder's id, and a later
pair naming an already-resolved cipher index overwrites the earlier
assignment, so the final `folder_id` of cipher `i` is determined by the
last in-range pair naming `i` (or keeps its original value when there is
none). -/
theorem relationships_applied_in_order_last_write_wins
    (rels : List FolderRelationship) (folders : List ImportFolder)
    (ciphers : List ImportCipher) (i : Nat) (hi : i < ciphers.length) :
    (resolveRelationships rels folders ciphers).length = ciphers.length ∧
    (∀ r ∈ hits folders i rels, r.key = i ∧ r.value < folders.length) ∧
    (∀ h2 : i < (resolveRelationships rels folders ciphers).length,
      ((resolveRelationships rels folders ciphers).get ⟨i, h2⟩).folder_id
        = match (hits folders i rels).getLast? with
          | some r => (folders[r.value]?).map ImportFolder.id
          | none => (ciphers.get ⟨i, hi⟩).folder_id) := by
  refine ⟨resolve_length folders rels ciphers, ?_, ?_⟩
  · intro r hr
    have hmem := List.mem_filter.mp hr
    have hp := (Bool.and_eq_true _ _).mp hmem.2
    exact ⟨by simpa using hp.1, by simpa using hp.2⟩
  · intro h2
    rw [resolve_get rels folders ciphers i h2 hi]
    unfold resolveEntry
    cases hlast : (hits folders i rels).getLast? <;> simp [hlast]

/-- Witness for C2, at the bundle of §8.4 of the spec: folders `[F0, F1]`,
ciphers `[C0, C1]`, one relationship `(1, 0)`; cipher 1 resolves to folder
`F0`. -/
theorem relationships_applied_in_order_last_write_wins_witness :
    (resolveRelationships wRels wFolders wCiphers).length = wCiphers.length ∧
    (∀ r ∈ hits wFolders 1 wRels, r.key = 1 ∧ r.value < wFolders.length) ∧
    (∀ h2 : 1 < (resolveRelationships wRels wFolders wCiphers).length,
      ((resolveRelationships wRels wFolders wCiphers).get ⟨1, h2⟩).folder_id
        = match (hits wFolders 1 wRels).getLast? with
          | some r => (wFolders[r.value]?).map ImportFolder.id
          | none => (wCiphers.get ⟨1, by decide⟩).folder_id) :=
  relationships_applied_in_order_last_write_wins wRels wFolders wCiphers 1 (by decide)

/-- Claim C4: a relationship pair with an out-of-range cipher index or
folder index is silently skipped: removing it changes neither the resolved
cipher entries nor any observable outcome of the whole import. -/
theorem out_of_range_relationship_skipped (ext : Ext) (claims : Claims)
    (payload : ImportRequest) (rels1 rels2 : List FolderRelationship) (r : FolderRelationship)
    (hr : payload.ciphers.length ≤ r.key ∨ payload.folders.length ≤ r.value) :
    resolveRelationships (rels1 ++ r :: rels2) payload.folders payload.ciphers
      = resolveRelationships (rels1 ++ rels2) payload.folders payload.ciphers ∧
    import_data ext claims { payload with folder_relationships := rels1 ++ r :: rels2 }
      = import_data ext claims { payload with folder_relationships := rels1 ++ rels2 } := by
  have hX : applyRelationship payload.folders
      (resolveRelationships rels1 payload.folders payload.ciphers) r
      = resolveRelationships rels1 payload.folders payload.ciphers := by
    unfold applyRelationship
    rcases hr with hk | hv
    · have hnone : (resolveRelationships rels1 payload.folders payload.ciphers)[r.key]? = none := by
        rw [List.getElem?_eq_none_iff, resolve_length]
        exact hk
      rw [hnone]
    · have hnone : payload.folders[r.value]? = none := List.getElem?_eq_none_iff.mpr hv
      rw [hnone]
      rcases h1 : (resolveRelationships rels1 payload.folders payload.ciphers)[r.key]? with _ | c <;>
        simp [h1]
  have h1 : resolveRelationships (rels1 ++ r :: rels2) payload.folders payload.ciphers
      = resolveRelationships (rels1 ++ rels2) payload.folders payload.ciphers := by
    unfold resolveRelationships
    rw [List.foldl_append, List.foldl_append]
    show List.foldl (applyRelationship payload.folders)
        (applyRelationship payload.folders
          (List.foldl (applyRelationship payload.folders) payload.ciphers rels1) r) rels2 = _
    rw [show applyRelationship payload.folders
        (List.foldl (applyRelationship payload.folders) payload.ciphers rels1) r
        = List.foldl (applyRelationship payload.folders) payload.ciphers rels1 from hX]
  refine ⟨h1, ?_⟩
  unfold import_data
  rcases hdb : ext.getDbErr with _ | e
  · dsimp only
    rw [h1]
  · rfl

/-- Witness for C4: the out-of-range pair `(0, 5)` (only two folders exist)
is a no-op for the §8.4 bundle. -/
theorem out_of_range_relationship_skipped_witness :
    resolveRelationships ([⟨1, 0⟩] ++ FolderRelationship.mk 0 5 :: []) wFolders wCiphers
      = resolveRelationships ([⟨1, 0⟩] ++ []) wFolders wCiphers ∧
    import_data sampleExt sampleClaims
        { samplePayload with folder_relationships := [⟨1, 0⟩] ++ FolderRelationship.mk 0 5 :: [] }
      = import_data sampleExt sampleClaims
        { samplePayload with folder_relationships := [⟨1, 0⟩] ++ [] } :=
  out_of_range_relationship_skipped sampleExt sampleClaims samplePayload
    [⟨1, 0⟩] [] (FolderRelationship.mk 0 5) (Or.inr (by decide))

/-- Claim C9: the relationship-resolution phase mutates only the
`folder_id` field of cipher entries: lengths are preserved, every other
field of every entry is unchanged, and the folder statements the import
submits to storage do not depend on the relationship list (the phase
performs no storage calls and leaves the prepared folder batch
untouched). -/
theorem resolver_touches_only_folder_id (ext : Ext) (claims : Claims) (payload : ImportRequest) :
    (resolveRelationships payload.folder_relationships payload.folders payload.ciphers).length
      = payload.ciphers.length ∧
    (∀ (i : Nat)
      (h1 : i < (resolveRelationships payload.folder_relationships payload.folders
        payload.ciphers).length)
      (h2 : i < payload.ciphers.length),
      sameExceptFolderId
        ((resolveRelationships payload.folder_relationships payload.folders payload.ciphers).get
          ⟨i, h1⟩)
        (payload.ciphers.get ⟨i, h2⟩)) ∧
    (∀ rels1 rels2 : List FolderRelationship,
      submittedFolderStmts (import_data ext claims { payload with folder_relationships := rels1 })
        = submittedFolderStmts
            (import_data ext claims { payload with folder_relationships := rels2 })) := by
  refine ⟨resolve_length _ _ _, ?_, ?_⟩
  · intro i h1 h2
    rw [resolve_get _ _ _ i h1 h2]
    exact resolveEntry_frame _ _ _ _
  · intro rels1 rels2
    unfold import_data
    rcases hdb : ext.getDbErr with _ | e
    · dsimp only
      by_cases hf : (payload.folders.map (mkFolderStmt claims.sub ext.now)).isEmpty
      · rw [if_pos hf, if_pos hf, submittedFolderStmts_importAfterFolders,
          submittedFolderStmts_importAfterFolders]
      · rw [if_neg hf, if_neg hf]
        by_cases hbf : ext.folderBatchFails
        · rw [if_pos hbf, if_pos hbf]
        · rw [if_neg hbf, if_neg hbf, submittedFolderStmts_importAfterFolders,
            submittedFolderStmts_importAfterFolders]
    · rfl

/-- Witness for C9 at the §8.4 bundle: entry 1 keeps every field but
`folder_id`, and swapping the relationship list for an empty one leaves
the submitted folder statements unchanged. -/
theorem resolver_touches_only_folder_id_witness :
    sameExceptFolderId
      ((resolveRelationships samplePayload.folder_relationships samplePayload.folders
        samplePayload.ciphers).get ⟨1, by decide⟩)
      (samplePayload.ciphers.get ⟨1, by decide⟩) ∧
    submittedFolderStmts
        (import_data sampleExt sampleClaims { samplePayload with folder_relationships := wRels })
      = submittedFolderStmts
        (import_data sampleExt sampleClaims { samplePayload with folder_relationships := [] }) :=
  ⟨(resolver_touches_only_folder_id sampleExt sampleClaims samplePayload).2.1 1 (by decide)
      (by decide),
   (resolver_touches_only_folder_id sampleExt sampleClaims samplePayload).2.2 wRels []⟩

/-- An empty bundle. -/
def emptyPayload : ImportRequest := { folders := [], ciphers := [], folder_relationships := [] }

/-- Claim C7: each of the two batch submissions is skipped entirely when
its prepared-statement list is empty: every batch an import ever submits
to storage is non-empty, and a bundle with zero folders and zero ciphers
succeeds with no storage writes attempted. -/
theorem empty_batches_never_submitted (ext : Ext) (claims : Claims) (payload : ImportRequest) :
    (∀ b ∈ (import_data ext claims payload).batches, b ≠ []) ∧
    (payload.folders = [] → payload.ciphers = [] → ext.getDbErr = none →
      import_data ext claims payload = { result := Except.ok (), batches := [] }) := by
  constructor
  · intro b hb
    have hbne : b.isEmpty = false := by
      rcases import_data_batches_cases ext claims payload b hb with ⟨_, hne⟩ | ⟨cs, _, hbeq, hne⟩
      · exact hne
      · rw [hbeq]; exact hne
    intro hnil
    rw [hnil] at hbne
    simp at hbne
  · intro hf hc hdb
    unfold import_data
    rcases hdbe : ext.getDbErr with _ | e
    · dsimp only
      rw [hf, hc]
      have hres2 : resolveRelationships payload.folder_relationships [] [] = [] := by
        rw [← List.length_eq_zero, resolve_length]
        rfl
      rw [hres2]
      rfl
    · rw [hdbe] at hdb
      cases hdb

/-- Witness for C7: the empty bundle succeeds with no batches submitted. -/
theorem empty_batches_never_submitted_witness :
    import_data sampleExt sampleClaims emptyPayload
      = { result := Except.ok (), batches := [] } :=
  (empty_batches_never_submitted sampleExt sampleClaims emptyPayload).2 rfl rfl rfl

/-- Claim C6: every folder and cipher row written by one import call
carries the same `created_at` and `updated_at`: the last two binds of
every statement in every submitted batch equal the single request-wide
clock reading `ext.now`, read once per import. -/
theorem rows_share_request_wide_timestamp (ext : Ext) (claims : Claims)
    (payload : ImportRequest) :
    ∀ b ∈ (import_data ext claims payload).batches, ∀ s ∈ b,
      s.binds.drop (s.binds.length - 2) = [JsVal.str ext.now, JsVal.str ext.now] := by
  intro b hb s hs
  rcases import_data_batches_cases ext claims payload b hb with ⟨hbeq, _⟩ | ⟨cs, hcs, hbeq, _⟩
  · rw [hbeq] at hs
    obtain ⟨f, _, hxf⟩ := List.mem_map.mp hs
    rw [← hxf]
    rfl
  · rw [hbeq] at hs
    exact (processCiphers_ok_mem ext claims.sub _ 0 cs hcs s hs).2

/-- Witness for C6: in a concrete import with one folder batch and one
cipher batch, both a folder statement and a cipher statement end in the
request timestamp twice. -/
theorem rows_share_request_wide_timestamp_witness :
    (mkFolderStmt sampleClaims.sub sampleExt.now (sampleFolder "F0" "alpha")).binds.drop
        ((mkFolderStmt sampleClaims.sub sampleExt.now (sampleFolder "F0" "alpha")).binds.length - 2)
      = [JsVal.str sampleExt.now, JsVal.str sampleExt.now] :=
  rows_share_request_wide_timestamp sampleExt sampleClaims samplePayload
    (samplePayload.folders.map (mkFolderStmt sampleClaims.sub sampleExt.now)) (by decide)
    (mkFolderStmt sampleClaims.sub sampleExt.now (sampleFolder "F0" "alpha")) (by decide)

theorem import_error_eq (ext : Ext) (claims : Claims) (payload : ImportRequest) (e : AppError)
    (hdb : ext.getDbErr = none) (hfb : ext.folderBatchFails = false)
    (h : processCiphers ext claims.sub 0
      (resolveRelationships payload.folder_relationships payload.folders payload.ciphers)
      = Except.error e) :
    import_data ext claims payload
      = { result := Except.error e, batches := folderBatches ext claims payload } := by
  rw [import_data_eq ext claims payload hdb hfb]
  exact importAfterFolders_error _ _ _ _ _ h

/-- A cipher entry declared for a different owner. -/
def badCipher : ImportCipher := sampleCipher "evil"

/-- A bundle whose second cipher is declared for a different owner. -/
def mismatchPayload : ImportRequest :=
  { folders := wFolders, ciphers := [sampleCipher "u", badCipher], folder_relationships := [] }

/-- Claim C1: a bundle with a cipher whose declared owner differs from the
caller is rejected in full with the client-error outcome: the cipher loop
returns the `BadRequest` error at the first mismatch no matter what
follows it, the import result is that client error, and no cipher batch is
submitted to storage (only the folder batch, when non-empty, was). -/
theorem owner_mismatch_rejects_whole_import (ext : Ext) (claims : Claims)
    (payload : ImportRequest) (pre : List ImportCipher) (bad : ImportCipher)
    (rest : List ImportCipher)
    (hdb : ext.getDbErr = none) (hfb : ext.folderBatchFails = false)
    (hres : resolveRelationships payload.folder_relationships payload.folders payload.ciphers
      = pre ++ bad :: rest)
    (hpre : ∀ c ∈ pre, c.encrypted_for = claims.sub ∧ serOk ext c = true)
    (hbad : bad.encrypted_for ≠ claims.sub) :
    (∀ (rest2 : List ImportCipher) (idx : Nat),
      processCiphers ext claims.sub idx (pre ++ bad :: rest2)
        = Except.error (AppError.BadRequest "Cipher encrypted for wrong user")) ∧
    (import_data ext claims payload).result
      = Except.error (AppError.BadRequest "Cipher encrypted for wrong user") ∧
    (import_data ext claims payload).batches = folderBatches ext claims payload := by
  have hstop : ∀ (rest2 : List ImportCipher) (idx : Nat),
      processCiphers ext claims.sub idx (pre ++ bad :: rest2)
        = Except.error (AppError.BadRequest "Cipher encrypted for wrong user") :=
    fun rest2 idx => processCiphers_owner_mismatch ext claims.sub pre bad rest2 idx hpre hbad
  have herr := import_error_eq ext claims payload
    (AppError.BadRequest "Cipher encrypted for wrong user") hdb hfb
    (by rw [hres]; exact hstop rest 0)
  exact ⟨hstop, by rw [herr], by rw [herr]⟩

/-- Witness for C1: a first cipher owned by the caller followed by one
declared for another owner; the import fails with the client error and
submits only the folder batch. -/
theorem owner_mismatch_rejects_whole_import_witness :
    (∀ (rest2 : List ImportCipher) (idx : Nat),
      processCiphers sampleExt sampleClaims.sub idx ([sampleCipher "u"] ++ badCipher :: rest2)
        = Except.error (AppError.BadRequest "Cipher encrypted for wrong user")) ∧
    (import_data sampleExt sampleClaims mismatchPayload).result
      = Except.error (AppError.BadRequest "Cipher encrypted for wrong user") ∧
    (import_data sampleExt sampleClaims mismatchPayload).batches
      = folderBatches sampleExt sampleClaims mismatchPayload :=
  owner_mismatch_rejects_whole_import sampleExt sampleClaims mismatchPayload
    [sampleCipher "u"] badCipher [] rfl rfl rfl
    (by
      intro c hc
      rw [List.mem_singleton] at hc
      subst hc
      exact ⟨rfl, rfl⟩)
    (by decide)

/-- An environment whose value-serialization step fails exactly on entries
whose opaque `name` field is a JSON string. -/
def failExt : Ext :=
  { sampleExt with
    serializeValue := fun cd =>
      match cd.name with
      | JsonValue.str _ => none
      | _ => some JsonValue.null }

/-- A cipher entry whose payload fails serialization under `failExt`. -/
def badSerCipher : ImportCipher := { sampleCipher "u" with name := JsonValue.str "x" }

/-- A bundle whose second cipher fails payload serialization under
`failExt`. -/
def serFaultPayload : ImportRequest :=
  { folders := wFolders, ciphers := [sampleCipher "u", badSerCipher],
    folder_relationships := [] }

/-- Claim C10: when serializing some cipher entry's payload fails, the call
returns the internal-fault outcome and the cipher batch is never
submitted: the batches of the call are exactly the folder phase's batches
(the folder batch, when non-empty, has already been submitted). -/
theorem serialization_fault_leaves_cipher_phase_unwritten (ext : Ext) (claims : Claims)
    (payload : ImportRequest) (pre : List ImportCipher) (bad : ImportCipher)
    (rest : List ImportCipher)
    (hdb : ext.getDbErr = none) (hfb : ext.folderBatchFails = false)
    (hres : resolveRelationships payload.folder_relationships payload.folders payload.ciphers
      = pre ++ bad :: rest)
    (hpre : ∀ c ∈ pre, c.encrypted_for = claims.sub ∧ serOk ext c = true)
    (hbadOwner : bad.encrypted_for = claims.sub)
    (hbadSer : serOk ext bad = false) :
    (import_data ext claims payload).result = Except.error AppError.Internal ∧
    (import_data ext claims payload).batches = folderBatches ext claims payload := by
  have herr := import_error_eq ext claims payload AppError.Internal hdb hfb
    (by
      rw [hres]
      exact processCiphers_ser_fault ext claims.sub pre bad rest 0 hpre hbadOwner hbadSer)
  exact ⟨by rw [herr], by rw [herr]⟩

/-- Witness for C10: the second cipher's payload fails to serialize; the
call returns the internal fault and submits only the folder batch. -/
theorem serialization_fault_leaves_cipher_phase_unwritten_witness :
    (import_data failExt sampleClaims serFaultPayload).result
      = Except.error AppError.Internal ∧
    (import_data failExt sampleClaims serFaultPayload).batches
      = folderBatches failExt sampleClaims serFaultPayload :=
  serialization_fault_leaves_cipher_phase_unwritten failExt sampleClaims serFaultPayload
    [sampleCipher "u"] badSerCipher [] rfl rfl rfl
    (by
      intro c hc
      rw [List.mem_singleton] at hc
      subst hc
      exact ⟨rfl, rfl⟩)
    rfl rfl

/-- Claim C3: folder import is idempotent on the client-supplied folder
id: executing the prepared folder batch of the same bundle twice against
the modelled folders table (INSERT OR IGNORE keyed on `id`, a total
function, so re-submission never errors) leaves the table exactly as after
the first execution, and the table holds exactly one row per distinct
folder id of the bundle. -/
theorem folder_import_idempotent (claims : Claims) (payload : ImportRequest) (ext1 ext2 : Ext) :
    applyFolderBatch
        (applyFolderBatch [] (payload.folders.map (mkFolderStmt claims.sub ext1.now)))
        (payload.folders.map (mkFolderStmt claims.sub ext2.now))
      = applyFolderBatch [] (payload.folders.map (mkFolderStmt claims.sub ext1.now)) ∧
    (∀ fid,
      countId (applyFolderBatch [] (payload.folders.map (mkFolderStmt claims.sub ext1.now))) fid
        = if payload.folders.any (fun f => f.id == fid) then 1 else 0) := by
  have hhas := hasId_applyFolderBatch_mk claims.sub ext1.now payload.folders []
  constructor
  · apply applyFolderBatch_mk_noop
    intro f hf
    rw [hhas f.id]
    have hany : payload.folders.any (fun g => g.id == f.id) = true :=
      List.any_eq_true.mpr ⟨f, hf, by simp⟩
    simp [hasId, hany]
  · intro fid
    rw [countId_applyFolderBatch_mk claims.sub ext1.now payload.folders []
      (fun x => by simp [countId]) fid]
    simp [hasId]

theorem serOk_congr (ext1 ext2 : Ext) (c : ImportCipher)
    (hsv : ext2.serializeValue = ext1.serializeValue)
    (hss : ext2.serializeString = ext1.serializeString) :
    serOk ext2 c = serOk ext1 c := by
  unfold serOk
  rw [hsv, hss]

theorem cipherStmtFor_head (ext : Ext) (sub : String) (idx : Nat) (c : ImportCipher) :
    (cipherStmtFor ext sub idx c).binds.head? = some (JsVal.str (ext.fresh idx)) := rfl

theorem cipherStmtFor_tail_congr (ext1 ext2 : Ext) (sub : String) (idx : Nat) (c : ImportCipher)
    (hnow : ext2.now = ext1.now)
    (hsv : ext2.serializeValue = ext1.serializeValue)
    (hss : ext2.serializeString = ext1.serializeString) :
    (cipherStmtFor ext2 sub idx c).binds.tail = (cipherStmtFor ext1 sub idx c).binds.tail := by
  simp only [cipherStmtFor, mkCipherStmt, mkCipher, hnow, hsv, hss]
  rfl

/-- Claim C5: every cipher row's identity is the freshly generated output
of the identifier generator at the row's position, never taken from the
bundle; two runs over the same bundle that differ only in the generator
randomness (with disjoint outputs, as cryptographically negligible
collision probability warrants) produce, for each original entry, cipher
statements whose id binds differ while every remaining bind and the query
are identical. -/
theorem fresh_cipher_identities_on_reimport (ext1 ext2 : Ext) (claims : Claims)
    (payload : ImportRequest) (resolved : List ImportCipher)
    (hres : resolveRelationships payload.folder_relationships payload.folders payload.ciphers
      = resolved)
    (hnow : ext2.now = ext1.now)
    (hsv : ext2.serializeValue = ext1.serializeValue)
    (hss : ext2.serializeString = ext1.serializeString)
    (hpass : ∀ c ∈ resolved, c.encrypted_for = claims.sub ∧ serOk ext1 c = true)
    (hfresh : ∀ j k, ext1.fresh j ≠ ext2.fresh k) :
    processCiphers ext1 claims.sub 0 resolved
      = Except.ok (expectedCipherStmts ext1 claims.sub 0 resolved) ∧
    processCiphers ext2 claims.sub 0 resolved
      = Except.ok (expectedCipherStmts ext2 claims.sub 0 resolved) ∧
    (expectedCipherStmts ext1 claims.sub 0 resolved).length = resolved.length ∧
    (expectedCipherStmts ext2 claims.sub 0 resolved).length = resolved.length ∧
    (∀ (j : Nat) (h1 : j < (expectedCipherStmts ext1 claims.sub 0 resolved).length)
      (h2 : j < (expectedCipherStmts ext2 claims.sub 0 resolved).length),
      ((expectedCipherStmts ext1 claims.sub 0 resolved).get ⟨j, h1⟩).binds.head?
        = some (JsVal.str (ext1.fresh j)) ∧
      ((expectedCipherStmts ext2 claims.sub 0 resolved).get ⟨j, h2⟩).binds.head?
        = some (JsVal.str (ext2.fresh j)) ∧
      ((expectedCipherStmts ext1 claims.sub 0 resolved).get ⟨j, h1⟩).binds.head?
        ≠ ((expectedCipherStmts ext2 claims.sub 0 resolved).get ⟨j, h2⟩).binds.head? ∧
      ((expectedCipherStmts ext1 claims.sub 0 resolved).get ⟨j, h1⟩).binds.tail
        = ((expectedCipherStmts ext2 claims.sub 0 resolved).get ⟨j, h2⟩).binds.tail ∧
      ((expectedCipherStmts ext1 claims.sub 0 resolved).get ⟨j, h1⟩).query
        = ((expectedCipherStmts ext2 claims.sub 0 resolved).get ⟨j, h2⟩).query) := by
  have hpass2 : ∀ c ∈ resolved, c.encrypted_for = claims.sub ∧ serOk ext2 c = true := by
    intro c hc
    obtain ⟨ho, hs⟩ := hpass c hc
    exact ⟨ho, (serOk_congr ext1 ext2 c hsv hss).trans hs⟩
  refine ⟨processCiphers_ok_of_passes ext1 claims.sub resolved 0 hpass,
    processCiphers_ok_of_passes ext2 claims.sub resolved 0 hpass2,
    expectedCipherStmts_length ext1 claims.sub resolved 0,
    expectedCipherStmts_length ext2 claims.sub resolved 0, ?_⟩
  intro j h1 h2
  have hj : j < resolved.length := by
    rw [← expectedCipherStmts_length ext1 claims.sub resolved 0]
    exact h1
  have hg1 := expectedCipherStmts_get ext1 claims.sub resolved 0 j h1 hj
  have hg2 := expectedCipherStmts_get ext2 claims.sub resolved 0 j h2 hj
  rw [Nat.zero_add] at hg1 hg2
  rw [hg1, hg2]
  refine ⟨cipherStmtFor_head ext1 claims.sub j _, cipherStmtFor_head ext2 claims.sub j _,
    ?_, (cipherStmtFor_tail_congr ext1 ext2 claims.sub j _ hnow hsv hss).symm, rfl⟩
  rw [cipherStmtFor_head, cipherStmtFor_head]
  intro heq
  exact hfresh j j (JsVal.str.inj (Option.some.inj heq))

/-- The healthy environment with constant generator output a. -/
def extA : Ext := { sampleExt with fresh := fun _ => "a" }

/-- The healthy environment with constant generator output b. -/
def extB : Ext := { sampleExt with fresh := fun _ => "b" }

/-- Witness for C5, on the §8.4 bundle with two generator environments
whose outputs are disjoint. -/
theorem fresh_cipher_identities_on_reimport_witness :
    processCiphers extA sampleClaims.sub 0 (resolveRelationships wRels wFolders wCiphers)
      = Except.ok (expectedCipherStmts extA sampleClaims.sub 0
          (resolveRelationships wRels wFolders wCiphers)) ∧
    processCiphers extB sampleClaims.sub 0 (resolveRelationships wRels wFolders wCiphers)
      = Except.ok (expectedCipherStmts extB sampleClaims.sub 0
          (resolveRelationships wRels wFolders wCiphers)) ∧
    (expectedCipherStmts extA sampleClaims.sub 0
        (resolveRelationships wRels wFolders wCiphers)).length
      = (resolveRelationships wRels wFolders wCiphers).length ∧
    (expectedCipherStmts extB sampleClaims.sub 0
        (resolveRelationships wRels wFolders wCiphers)).length
      = (resolveRelationships wRels wFolders wCiphers).length ∧
    (∀ (j : Nat)
      (h1 : j < (expectedCipherStmts extA sampleClaims.sub 0
        (resolveRelationships wRels wFolders wCiphers)).length)
      (h2 : j < (expectedCipherStmts extB sampleClaims.sub 0
        (resolveRelationships wRels wFolders wCiphers)).length),
      ((expectedCipherStmts extA sampleClaims.sub 0
          (resolveRelationships wRels wFolders wCiphers)).get ⟨j, h1⟩).binds.head?
        = some (JsVal.str (extA.fresh j)) ∧
      ((expectedCipherStmts extB sampleClaims.sub 0
          (resolveRelationships wRels wFolders wCiphers)).get ⟨j, h2⟩).binds.head?
        = some (JsVal.str (extB.fresh j)) ∧
      ((expectedCipherStmts extA sampleClaims.sub 0
          (resolveRelationships wRels wFolders wCiphers)).get ⟨j, h1⟩).binds.head?
        ≠ ((expectedCipherStmts extB sampleClaims.sub 0
          (resolveRelationships wRels wFolders wCiphers)).get ⟨j, h2⟩).binds.head? ∧
      ((expectedCipherStmts extA sampleClaims.sub 0
          (resolveRelationships wRels wFolders wCiphers)).get ⟨j, h1⟩).binds.tail
        = ((expectedCipherStmts extB sampleClaims.sub 0
          (resolveRelationships wRels wFolders wCiphers)).get ⟨j, h2⟩).binds.tail ∧
      ((expectedCipherStmts extA sampleClaims.sub 0
          (resolveRelationships wRels wFolders wCiphers)).get ⟨j, h1⟩).query
        = ((expectedCipherStmts extB sampleClaims.sub 0
          (resolveRelationships wRels wFolders wCiphers)).get ⟨j, h2⟩).query) :=
  fresh_cipher_identities_on_reimport extA extB sampleClaims samplePayload
    (resolveRelationships wRels wFolders wCiphers) rfl rfl rfl rfl
    (by
      intro c hc
      have hres2 : resolveRelationships wRels wFolders wCiphers
          = [sampleCipher "u", { sampleCipher "u" with folder_id := some "F0" }] := rfl
      rw [hres2] at hc
      rcases List.mem_cons.mp hc with rfl | hc2
      · exact ⟨rfl, rfl⟩
      · rcases List.mem_cons.mp hc2 with rfl | hc3
        · exact ⟨rfl, rfl⟩
        · cases hc3)
    (fun j k => by show ("a" : String) ≠ "b"; decide)

theorem import_folder_batch_fault (ext : Ext) (claims : Claims) (payload : ImportRequest)
    (hdb : ext.getDbErr = none) (hf : payload.folders ≠ []) (hbf : ext.folderBatchFails = true) :
    import_data ext claims payload
      = { result := Except.error AppError.Database,
          batches := [payload.folders.map (mkFolderStmt claims.sub ext.now)] } := by
  unfold import_data
  rcases hdbe : ext.getDbErr with _ | e
  · dsimp only
    have hne : (payload.folders.map (mkFolderStmt claims.sub ext.now)).isEmpty = false := by
      rw [map_isEmpty]
      rcases hpf : payload.folders with _ | ⟨f, fs⟩
      · exact absurd hpf hf
      · rfl
    rw [if_neg (by simp [hne]), if_pos hbf]
  · rw [hdbe] at hdb
    cases hdb

theorem import_cipher_batch_fault (ext : Ext) (claims : Claims) (payload : ImportRequest)
    (hdb : ext.getDbErr = none) (hfb : ext.folderBatchFails = false)
    (hpass : ∀ c ∈ resolveRelationships payload.folder_relationships payload.folders
      payload.ciphers, c.encrypted_for = claims.sub ∧ serOk ext c = true)
    (hne : resolveRelationships payload.folder_relationships payload.folders payload.ciphers ≠ [])
    (hcf : ext.cipherBatchFails = true) :
    (import_data ext claims payload).result = Except.error AppError.Database := by
  rw [import_data_eq ext claims payload hdb hfb]
  unfold importAfterFolders
  rw [processCiphers_ok_of_passes ext claims.sub _ 0 hpass]
  dsimp only
  have hlen : (expectedCipherStmts ext claims.sub 0
      (resolveRelationships payload.folder_relationships payload.folders
        payload.ciphers)).isEmpty = false := by
    rcases hE : expectedCipherStmts ext claims.sub 0
        (resolveRelationships payload.folder_relationships payload.folders payload.ciphers)
      with _ | ⟨s, ss⟩
    · have hL := expectedCipherStmts_length ext claims.sub
        (resolveRelationships payload.folder_relationships payload.folders payload.ciphers) 0
      rw [hE] at hL
      exact absurd (List.length_eq_zero.mp hL.symm) hne
    · rfl
  rw [if_neg (by simp [hlen]), if_pos hcf]

/-- The healthy environment except that the folder batch submission
fails. -/
def extFolderFail : Ext := { sampleExt with folderBatchFails := true }

/-- The healthy environment except that the cipher batch submission
fails. -/
def extCipherFail : Ext := { sampleExt with cipherBatchFails := true }

/-- Claim C8: the three failure causes map to distinguishable outcome
kinds at the caller boundary: an ownership mismatch yields the
`BadRequest` client-fault outcome, a payload-serialization fault yields
the opaque `Internal` fault, and a storage fault on either batch yields
the opaque `Database` fault; the spec-modelled outcome classification
`isClientFault` separates the client fault from both server faults. -/
theorem failure_kinds_distinguishable :
    (∀ msg, (AppError.BadRequest msg).isClientFault = true) ∧
    AppError.Internal.isClientFault = false ∧
    AppError.Database.isClientFault = false ∧
    (∀ (ext : Ext) (claims : Claims) (payload : ImportRequest)
      (pre : List ImportCipher) (bad : ImportCipher) (rest : List ImportCipher),
      ext.getDbErr = none → ext.folderBatchFails = false →
      resolveRelationships payload.folder_relationships payload.folders payload.ciphers
        = pre ++ bad :: rest →
      (∀ c ∈ pre, c.encrypted_for = claims.sub ∧ serOk ext c = true) →
      bad.encrypted_for ≠ claims.sub →
      ∃ msg, (import_data ext claims payload).result
        = Except.error (AppError.BadRequest msg)) ∧
    (∀ (ext : Ext) (claims : Claims) (payload : ImportRequest)
      (pre : List ImportCipher) (bad : ImportCipher) (rest : List ImportCipher),
      ext.getDbErr = none → ext.folderBatchFails = false →
      resolveRelationships payload.folder_relationships payload.folders payload.ciphers
        = pre ++ bad :: rest →
      (∀ c ∈ pre, c.encrypted_for = claims.sub ∧ serOk ext c = true) →
      bad.encrypted_for = claims.sub → serOk ext bad = false →
      (import_data ext claims payload).result = Except.error AppError.Internal) ∧
    (∀ (ext : Ext) (claims : Claims) (payload : ImportRequest),
      ext.getDbErr = none → payload.folders ≠ [] → ext.folderBatchFails = true →
      (import_data ext claims payload).result = Except.error AppError.Database) ∧
    (∀ (ext : Ext) (claims : Claims) (payload : ImportRequest),
      ext.getDbErr = none → ext.folderBatchFails = false →
      (∀ c ∈ resolveRelationships payload.folder_relationships payload.folders payload.ciphers,
        c.encrypted_for = claims.sub ∧ serOk ext c = true) →
      resolveRelationships payload.folder_relationships payload.folders payload.ciphers ≠ [] →
      ext.cipherBatchFails = true →
      (import_data ext claims payload).result = Except.error AppError.Database) := by
  refine ⟨fun msg => rfl, rfl, rfl, ?_, ?_, ?_, ?_⟩
  · intro ext claims payload pre bad rest hdb hfb hres hpre hbad
    refine ⟨"Cipher encrypted for wrong user", ?_⟩
    have herr := import_error_eq ext claims payload
      (AppError.BadRequest "Cipher encrypted for wrong user") hdb hfb
      (by
        rw [hres]
        exact processCiphers_owner_mismatch ext claims.sub pre bad rest 0 hpre hbad)
    rw [herr]
  · intro ext claims payload pre bad rest hdb hfb hres hpre hbadOwner hbadSer
    have herr := import_error_eq ext claims payload AppError.Internal hdb hfb
      (by
        rw [hres]
        exact processCiphers_ser_fault ext claims.sub pre bad rest 0 hpre hbadOwner hbadSer)
    rw [herr]
  · intro ext claims payload hdb hf hbf
    rw [import_folder_batch_fault ext claims payload hdb hf hbf]
  · intro ext claims payload hdb hfb hpass hne hcf
    exact import_cipher_batch_fault ext claims payload hdb hfb hpass hne hcf

/-- Witness for C8: concrete imports exhibiting each failure cause, with
the classification separating the client fault from the server faults. -/
theorem failure_kinds_distinguishable_witness :
    (AppError.BadRequest "Cipher encrypted for wrong user").isClientFault = true ∧
    AppError.Internal.isClientFault = false ∧
    AppError.Database.isClientFault = false ∧
    (∃ msg, (import_data sampleExt sampleClaims mismatchPayload).result
      = Except.error (AppError.BadRequest msg)) ∧
    (import_data failExt sampleClaims serFaultPayload).result
      = Except.error AppError.Internal ∧
    (import_data extFolderFail sampleClaims samplePayload).result
      = Except.error AppError.Database ∧
    (import_data extCipherFail sampleClaims samplePayload).result
      = Except.error AppError.Database :=
  ⟨failure_kinds_distinguishable.1 "Cipher encrypted for wrong user",
   failure_kinds_distinguishable.2.1,
   failure_kinds_distinguishable.2.2.1,
   failure_kinds_distinguishable.2.2.2.1 sampleExt sampleClaims mismatchPayload
     [sampleCipher "u"] badCipher [] rfl rfl rfl
     (by
       intro c hc
       rw [List.mem_singleton] at hc
       subst hc
       exact ⟨rfl, rfl⟩)
     (by decide),
   failure_kinds_distinguishable.2.2.2.2.1 failExt sampleClaims serFaultPayload
     [sampleCipher "u"] badSerCipher [] rfl rfl rfl
     (by
       intro c hc
       rw [List.mem_singleton] at hc
       subst hc
       exact ⟨rfl, rfl⟩)
     rfl rfl,
   failure_kinds_distinguishable.2.2.2.2.2.1 extFolderFail sampleClaims samplePayload rfl
     (by intro h; exact List.noConfusion h) rfl,
   failure_kinds_distinguishable.2.2.2.2.2.2 extCipherFail sampleClaims samplePayload rfl rfl
     (by
       intro c hc
       have hres2 : resolveRelationships samplePayload.folder_relationships samplePayload.folders
           samplePayload.ciphers
           = [sampleCipher "u", { sampleCipher "u" with folder_id := some "F0" }] := rfl
       rw [hres2] at hc
       rcases List.mem_cons.mp hc with rfl | hc2
       · exact ⟨rfl, rfl⟩
       · rcases List.mem_cons.mp hc2 with rfl | hc3
         · exact ⟨rfl, rfl⟩
         · cases hc3)
     (by intro h; exact List.noConfusion h) rfl⟩

end WardenWorker
